import Mathlib

/-!
Shallow embedding of src/src/grubberize.c (the elastic binding between GRUB
and standalone EFI) together with theorems about its specification.

The time converter GrubTimeToEfiTime is embedded with Int.tdiv / Int.tmod,
which are exactly the semantics of the C (C99) division and remainder
operators on signed integers (truncation toward zero).
-/

namespace Grubberize

/-! ## Time converter (grubberize.c lines 224-284) -/

def SECS_PER_HOUR : Int := 60 * 60

def SECS_PER_DAY : Int := SECS_PER_HOUR * 24

/-- C macro: (year) % 4 == 0 && ((year) % 100 != 0 || (year) % 400 == 0) -/
def isleap (y : Int) : Bool := y.tmod 4 == 0 && (y.tmod 100 != 0 || y.tmod 400 == 0)

/-- C macro DIV(a, b) = (a) / (b) - ((a) % (b) < 0) -/
def cDIV (a b : Int) : Int := a.tdiv b - (if a.tmod b < 0 then 1 else 0)

/-- C macro LEAPS_THRU_END_OF(y) = DIV (y, 4) - DIV (y, 100) + DIV (y, 400) -/
def LEAPS_THRU_END_OF (y : Int) : Int := cDIV y 4 - cDIV y 100 + cDIV y 400

/-- Row 0 of the static table mon_yday: cumulative days before each month,
normal years. -/
def mon_yday_normal : List Int :=
  [0, 31, 59, 90, 120, 151, 181, 212, 243, 273, 304, 334, 365]

/-- Row 1 of the static table mon_yday: cumulative days before each month,
leap years. -/
def mon_yday_leap : List Int :=
  [0, 31, 60, 91, 121, 152, 182, 213, 244, 274, 305, 335, 366]

/-- The table row selected by the leap-year flag, as in mon_yday[isleap(y)]. -/
def mon_yday (leap : Bool) : List Int :=
  if leap then mon_yday_leap else mon_yday_normal

/-- Number of days of year y: 366 iff leap. -/
def yearLength (y : Int) : Int := if isleap y then 366 else 365

/-- Body iteration of: while (rem < 0) { rem += SECS_PER_DAY; --days; }
with explicit fuel so the kernel can evaluate it. -/
def normNegGo : Nat → Int → Int → Int × Int
  | 0, days, rem => (days, rem)
  | fuel + 1, days, rem =>
    if rem < 0 then normNegGo fuel (days - 1) (rem + SECS_PER_DAY) else (days, rem)

/-- The while loop: while (rem < 0) { rem += SECS_PER_DAY; --days; }.
Fuel (-rem).toNat always suffices because every pass increases rem by 86400. -/
def normNeg (days rem : Int) : Int × Int := normNegGo (-rem).toNat days rem

/-- Body iteration of: while (rem >= SECS_PER_DAY) { rem -= SECS_PER_DAY; ++days; }
with explicit fuel so the kernel can evaluate it. -/
def normPosGo : Nat → Int → Int → Int × Int
  | 0, days, rem => (days, rem)
  | fuel + 1, days, rem =>
    if rem ≥ SECS_PER_DAY then normPosGo fuel (days + 1) (rem - SECS_PER_DAY) else (days, rem)

/-- The while loop: while (rem >= SECS_PER_DAY) { rem -= SECS_PER_DAY; ++days; }.
Fuel rem.toNat always suffices because every pass decreases rem by 86400. -/
def normPos (days rem : Int) : Int × Int := normPosGo rem.toNat days rem

/-- One iteration of the year-correction while loop:
yg = y + days / 365 - (days % 365 < 0);
days -= (yg - y) * 365 + LEAPS_THRU_END_OF (yg - 1) - LEAPS_THRU_END_OF (y - 1);
y = yg.  The guess expression is exactly the DIV macro, i.e. cDIV days 365. -/
def yearStep (days y : Int) : Int × Int :=
  let yg := y + cDIV days 365
  (days - ((yg - y) * 365 + LEAPS_THRU_END_OF (yg - 1) - LEAPS_THRU_END_OF (y - 1)), yg)

/-- The year-correction while loop, with explicit fuel:
while (days < 0 || days >= (isleap(y) ? 366 : 365)) { ... } -/
def yearLoop : Nat → Int → Int → Int × Int
  | 0, days, y => (days, y)
  | fuel + 1, days, y =>
    if days < 0 ∨ days ≥ yearLength y then
      let s := yearStep days y
      yearLoop fuel s.1 s.2
    else (days, y)

/-- The month-searching loop: for (y = 11; days < ip[y]; --y) continue;
started at index 11 and stopping at index 0 at the latest. -/
def monthScan (ip : List Int) (days : Int) : Nat → Nat
  | 0 => 0
  | m + 1 => if days < ip.getD (m + 1) 0 then monthScan ip days m else m + 1

/-- The output structure: the fields of EFI_TIME that GrubTimeToEfiTime sets.
All assigned values are proved to lie far inside the unsigned field widths
(UINT16 Year, UINT8 the rest), so no wraparound is modelled. -/
structure EFI_TIME where
  Year : Int
  Month : Int
  Day : Int
  Hour : Int
  Minute : Int
  Second : Int
deriving DecidableEq

/-- Embedding of GrubTimeToEfiTime (grubberize.c lines 246-284). -/
def GrubTimeToEfiTime (t : Int) : EFI_TIME :=
  let days0 := t.tdiv SECS_PER_DAY
  let rem0 := t.tmod SECS_PER_DAY
  let dr1 := normNeg days0 rem0
  let dr2 := normPos dr1.1 dr1.2
  let rem := dr2.2
  let dy := yearLoop 100 dr2.1 1970
  let ip := mon_yday (isleap dy.2)
  let m := monthScan ip dy.1 11
  { Hour := rem.tdiv SECS_PER_HOUR,
    Minute := (rem.tmod SECS_PER_HOUR).tdiv 60,
    Second := (rem.tmod SECS_PER_HOUR).tmod 60,
    Year := dy.2,
    Month := (m : Int) + 1,
    Day := dy.1 - ip.getD m 0 + 1 }

/-- The day count as it stands after the two remainder-normalisation loops. -/
def epochDays (t : Int) : Int :=
  (normPos (normNeg (t.tdiv SECS_PER_DAY) (t.tmod SECS_PER_DAY)).1
           (normNeg (t.tdiv SECS_PER_DAY) (t.tmod SECS_PER_DAY)).2).1

/-- The seconds-within-day remainder after the two normalisation loops. -/
def epochRem (t : Int) : Int :=
  (normPos (normNeg (t.tdiv SECS_PER_DAY) (t.tmod SECS_PER_DAY)).1
           (normNeg (t.tdiv SECS_PER_DAY) (t.tmod SECS_PER_DAY)).2).2

/-- Exit condition of the year-correction loop: days is a valid day index
into year y. -/
def converged (days y : Int) : Prop := 0 ≤ days ∧ days < yearLength y

/-- Days of the given (1-based) month in the given year, read off the
cumulative tables. -/
def daysInMonth (y m : Int) : Int :=
  (mon_yday (isleap y)).getD m.toNat 0 - (mon_yday (isleap y)).getD (m.toNat - 1) 0

/-- A calendar value is valid: time-of-day fields in range, month in 1..12,
day within the month, and the leap flag agreeing with the Gregorian rule. -/
def validTime (tp : EFI_TIME) : Prop :=
  0 ≤ tp.Hour ∧ tp.Hour < 24 ∧
  0 ≤ tp.Minute ∧ tp.Minute < 60 ∧
  0 ≤ tp.Second ∧ tp.Second < 60 ∧
  1 ≤ tp.Month ∧ tp.Month ≤ 12 ∧
  1 ≤ tp.Day ∧ tp.Day ≤ daysInMonth tp.Year tp.Month ∧
  (isleap tp.Year = true ↔ (4 ∣ tp.Year ∧ (¬ (100 ∣ tp.Year) ∨ 400 ∣ tp.Year)))

theorem SECS_PER_DAY_eq : SECS_PER_DAY = 86400 := by norm_num [SECS_PER_DAY, SECS_PER_HOUR]

theorem SECS_PER_HOUR_eq : SECS_PER_HOUR = 3600 := by norm_num [SECS_PER_HOUR]

/-- C division and remainder bracket: for a positive divisor the truncated
quotient and remainder satisfy the defining identity and the remainder is
strictly between -b and b. -/
theorem tmod_bracket (a : Int) {b : Int} (hb : 0 < b) :
    b * a.tdiv b + a.tmod b = a ∧ -b < a.tmod b ∧ a.tmod b < b := by
  refine ⟨Int.tdiv_add_tmod a b, ?_, Int.tmod_lt_of_pos a hb⟩
  rcases le_or_lt 0 a with ha | ha
  · have := Int.tmod_nonneg b ha
    omega
  · have h1 : a.tmod b = -((-a).tmod b) := by
      rw [Int.tmod_def, Int.tmod_def, Int.neg_tdiv]; ring
    have h2 : (-a).tmod b < b := Int.tmod_lt_of_pos _ hb
    have h3 : 0 ≤ (-a).tmod b := Int.tmod_nonneg b (by omega)
    omega

/-- The DIV macro computes the floor quotient: b * DIV(a,b) ≤ a < b * DIV(a,b) + b. -/
theorem cDIV_bracket (a : Int) {b : Int} (hb : 0 < b) :
    b * cDIV a b ≤ a ∧ a < b * cDIV a b + b := by
  obtain ⟨he, hl, hu⟩ := tmod_bracket a hb
  unfold cDIV
  split
  · have hx : b * (a.tdiv b - 1) = b * a.tdiv b - b := by ring
    constructor <;> linarith
  · have hx : b * (a.tdiv b - 0) = b * a.tdiv b := by ring
    constructor <;> linarith

/-- The __isleap macro agrees with the Gregorian divisibility rule. -/
theorem isleap_iff (y : Int) :
    isleap y = true ↔ ((4:Int) ∣ y ∧ (¬ ((100:Int) ∣ y) ∨ (400:Int) ∣ y)) := by
  simp only [isleap, Bool.and_eq_true, Bool.or_eq_true, beq_iff_eq, bne_iff_ne, ne_eq,
    Int.dvd_iff_tmod_eq_zero]

/-- LEAPS_THRU_END_OF counts one more exactly at leap years. -/
theorem leaps_diff (y : Int) :
    LEAPS_THRU_END_OF y - LEAPS_THRU_END_OF (y - 1) = if isleap y = true then 1 else 0 := by
  obtain ⟨a1, a2⟩ := cDIV_bracket y (show (0:Int) < 4 by norm_num)
  obtain ⟨b1, b2⟩ := cDIV_bracket y (show (0:Int) < 100 by norm_num)
  obtain ⟨c1, c2⟩ := cDIV_bracket y (show (0:Int) < 400 by norm_num)
  obtain ⟨a3, a4⟩ := cDIV_bracket (y - 1) (show (0:Int) < 4 by norm_num)
  obtain ⟨b3, b4⟩ := cDIV_bracket (y - 1) (show (0:Int) < 100 by norm_num)
  obtain ⟨c3, c4⟩ := cDIV_bracket (y - 1) (show (0:Int) < 400 by norm_num)
  have hiff := isleap_iff y
  unfold LEAPS_THRU_END_OF
  by_cases hL : isleap y = true
  · rw [if_pos hL]
    have hc := hiff.mp hL
    omega
  · rw [if_neg hL]
    have hc : ¬ ((4:Int) ∣ y ∧ (¬ ((100:Int) ∣ y) ∨ (400:Int) ∣ y)) :=
      fun hx => hL (hiff.mpr hx)
    omega

/-- The leap-day counter is monotone and grows at most one per year. -/
theorem leaps_count (m : Int) (n : Nat) :
    0 ≤ LEAPS_THRU_END_OF (m + n) - LEAPS_THRU_END_OF m ∧
    LEAPS_THRU_END_OF (m + n) - LEAPS_THRU_END_OF m ≤ n := by
  induction n with
  | zero => simp
  | succ k ih =>
    have hd := leaps_diff (m + (k + 1 : Nat))
    have he : (m + ((k:Int) + 1)) - 1 = m + k := by ring
    push_cast at hd ⊢
    rw [he] at hd
    split at hd <;> omega

/-- Between two years a ≤ b the number of counted leap days lies in [0, b - a]. -/
theorem leaps_between {a b : Int} (hab : a ≤ b) :
    0 ≤ LEAPS_THRU_END_OF b - LEAPS_THRU_END_OF a ∧
    LEAPS_THRU_END_OF b - LEAPS_THRU_END_OF a ≤ b - a := by
  have h := leaps_count a (b - a).toNat
  have he : a + ((b - a).toNat : Int) = b := by omega
  rw [he] at h
  omega

/-- Closed form of one loop iteration. -/
theorem yearStep_def (days y : Int) :
    yearStep days y =
      (days - (cDIV days 365 * 365 + LEAPS_THRU_END_OF (y + cDIV days 365 - 1) -
        LEAPS_THRU_END_OF (y - 1)), y + cDIV days 365) := by
  simp only [yearStep]
  have h : y + cDIV days 365 - y = cDIV days 365 := by ring
  rw [h]

/-- After the first iteration, started from 1970 with the day count of any
32-bit input, the day count lands in the band [-68, 433]. -/
theorem yearStep_first {days : Int} (h1 : -24857 ≤ days) (h2 : days ≤ 24856) :
    -68 ≤ (yearStep days 1970).1 ∧ (yearStep days 1970).1 ≤ 433 := by
  rw [yearStep_def]
  dsimp only
  have hn19 : (1970:Int) - 1 = 1969 := by norm_num
  rw [hn19]
  obtain ⟨hb1, hb2⟩ := cDIV_bracket days (show (0:Int) < 365 by norm_num)
  rcases le_or_lt 0 (cDIV days 365) with hk0 | hk0
  · have hL := leaps_between (show (1969:Int) ≤ 1970 + cDIV days 365 - 1 by omega)
    omega
  · have hL := leaps_between (show 1970 + cDIV days 365 - 1 ≤ (1969:Int) by omega)
    omega

/-- From the band [-68, 433], one further iteration (when the loop condition
still holds) reaches the exit condition. -/
theorem yearStep_second {days y : Int} (hlo : -68 ≤ days) (hhi : days ≤ 433)
    (hcond : days < 0 ∨ days ≥ yearLength y) :
    converged (yearStep days y).1 (yearStep days y).2 := by
  rw [yearStep_def]
  unfold converged
  dsimp only
  obtain ⟨hb1, hb2⟩ := cDIV_bracket days (show (0:Int) < 365 by norm_num)
  have h365 : yearLength (y - 1) = 365 ∨ yearLength (y - 1) = 366 := by
    unfold yearLength; split <;> simp
  have h365b : yearLength (y + 1) = 365 ∨ yearLength (y + 1) = 366 := by
    unfold yearLength; split <;> simp
  rcases hcond with hneg | hbig
  · have hk : cDIV days 365 = -1 := by omega
    rw [hk]
    have hd := leaps_diff (y - 1)
    have he : (y - 1) - 1 = y - 2 := by ring
    rw [he] at hd
    have he1 : y + -1 - 1 = y - 2 := by ring
    have he2 : y + -1 = y - 1 := by ring
    rw [he1, he2]
    by_cases hly : isleap (y - 1) = true
    · rw [if_pos hly] at hd
      have hyl : yearLength (y - 1) = 366 := by unfold yearLength; rw [if_pos hly]
      omega
    · rw [if_neg hly] at hd
      have hyl : yearLength (y - 1) = 365 := by unfold yearLength; rw [if_neg hly]
      omega
  · have hyl0 : yearLength y = 365 ∨ yearLength y = 366 := by
      unfold yearLength; split <;> simp
    have hk : cDIV days 365 = 1 := by omega
    rw [hk]
    have hd := leaps_diff y
    have he : y + 1 - 1 = y := by ring
    rw [he]
    by_cases hly : isleap y = true
    · rw [if_pos hly] at hd
      have hyl : yearLength y = 366 := by unfold yearLength; rw [if_pos hly]
      omega
    · rw [if_neg hly] at hd
      have hyl : yearLength y = 365 := by unfold yearLength; rw [if_neg hly]
      omega

/-- Once the exit condition holds the loop returns its state unchanged, for
any fuel. -/
theorem yearLoop_exit {days y : Int} (h : converged days y) :
    ∀ n, yearLoop n days y = (days, y) := by
  intro n
  cases n with
  | zero => rfl
  | succ k =>
    have hX : ¬ (days < 0 ∨ days ≥ yearLength y) := by
      obtain ⟨ha, hb⟩ := h
      push_neg
      exact ⟨ha, hb⟩
    simp only [yearLoop]
    rw [if_neg hX]

/-- While the condition holds, one unit of fuel performs one iteration. -/
theorem yearLoop_go {days y : Int} (h : days < 0 ∨ days ≥ yearLength y) (n : Nat) :
    yearLoop (n + 1) days y = yearLoop n (yearStep days y).1 (yearStep days y).2 := by
  simp only [yearLoop]
  rw [if_pos h]

/-- For any 32-bit day count, the year-correction loop converges within 3
iterations: with fuel at least 3 the result no longer depends on the fuel and
satisfies the exit condition. -/
theorem yearLoop_total {days : Int} (hlo : -24857 ≤ days) (hhi : days ≤ 24856) :
    ∀ n, 3 ≤ n → yearLoop n days 1970 = yearLoop 3 days 1970 ∧
      converged (yearLoop n days 1970).1 (yearLoop n days 1970).2 := by
  have aux : ∀ m : Nat, yearLoop (m + 3) days 1970 = yearLoop 3 days 1970 ∧
      converged (yearLoop (m + 3) days 1970).1 (yearLoop (m + 3) days 1970).2 := by
    intro m
    by_cases h0 : days < 0 ∨ days ≥ yearLength 1970
    · have e1 : m + 3 = (m + 2) + 1 := by omega
      have e2 : (3 : Nat) = 2 + 1 := by norm_num
      rw [e1, yearLoop_go h0 (m + 2), e2, yearLoop_go h0 2]
      have hband := yearStep_first hlo hhi
      by_cases h1 : (yearStep days 1970).1 < 0 ∨
          (yearStep days 1970).1 ≥ yearLength (yearStep days 1970).2
      · have e3 : m + 2 = (m + 1) + 1 := by omega
        have e4 : (2 : Nat) = 1 + 1 := by norm_num
        rw [e3, yearLoop_go h1 (m + 1), e4, yearLoop_go h1 1]
        have hc := yearStep_second hband.1 hband.2 h1
        rw [yearLoop_exit hc (m + 1), yearLoop_exit hc 1]
        exact ⟨rfl, hc⟩
      · have hc : converged (yearStep days 1970).1 (yearStep days 1970).2 := by
          unfold converged
          push_neg at h1
          exact h1
        rw [yearLoop_exit hc (m + 2), yearLoop_exit hc 2]
        exact ⟨rfl, hc⟩
    · have hc : converged days 1970 := by
        unfold converged
        push_neg at h0
        exact h0
      rw [yearLoop_exit hc (m + 3), yearLoop_exit hc 3]
      exact ⟨rfl, hc⟩
  intro n hn
  obtain ⟨m, rfl⟩ : ∃ m, n = m + 3 := ⟨n - 3, by omega⟩
  exact aux m

/-- A nonnegative remainder leaves the first normalisation loop unchanged. -/
theorem normNegGo_stay {rem : Int} (h : 0 ≤ rem) (f : Nat) (days : Int) :
    normNegGo f days rem = (days, rem) := by
  cases f with
  | zero => rfl
  | succ k =>
    simp only [normNegGo]
    rw [if_neg (by omega)]

/-- A remainder below one day leaves the second normalisation loop unchanged. -/
theorem normPosGo_stay {rem : Int} (h : rem < SECS_PER_DAY) (f : Nat) (days : Int) :
    normPosGo f days rem = (days, rem) := by
  cases f with
  | zero => rfl
  | succ k =>
    simp only [normPosGo]
    rw [if_neg (by omega)]

/-- The two remainder-normalisation loops produce the floor decomposition of
the input into days and a daytime remainder in [0, 86400). -/
theorem norm_spec (t : Int) :
    86400 * epochDays t + epochRem t = t ∧ 0 ≤ epochRem t ∧ epochRem t < 86400 := by
  have hS := SECS_PER_DAY_eq
  obtain ⟨he, hl, hu⟩ := tmod_bracket t (show (0:Int) < SECS_PER_DAY by omega)
  unfold epochDays epochRem normNeg normPos
  rw [hS] at he hl hu ⊢
  rcases le_or_lt 0 (t.tmod 86400) with hpos | hneg
  · rw [normNegGo_stay hpos _ _]
    dsimp only
    rw [normPosGo_stay (by omega) _ _]
    dsimp only
    omega
  · obtain ⟨f, hf⟩ : ∃ f, (-(t.tmod 86400)).toNat = f + 1 :=
      ⟨(-(t.tmod 86400)).toNat - 1, by omega⟩
    rw [hf]
    simp only [normNegGo]
    rw [if_pos hneg]
    rw [normNegGo_stay (by omega) _ _]
    dsimp only
    rw [normPosGo_stay (by omega) _ _]
    dsimp only
    omega

/-- The month search never goes above its starting index. -/
theorem monthScan_le (ip : List Int) (days : Int) (j : Nat) : monthScan ip days j ≤ j := by
  induction j with
  | zero => simp [monthScan]
  | succ k ih =>
    simp only [monthScan]
    split
    · omega
    · omega

/-- Invariant of the month search: the found entry is at most days, and
either the scan is still at the top or days is below the next entry. -/
theorem monthScan_spec_aux (ip : List Int) (days : Int) (h0 : ip.getD 0 0 ≤ days) (j : Nat) :
    ip.getD (monthScan ip days j) 0 ≤ days ∧
    (monthScan ip days j = j ∨ days < ip.getD (monthScan ip days j + 1) 0) := by
  induction j with
  | zero => exact ⟨by simpa [monthScan] using h0, Or.inl rfl⟩
  | succ k ih =>
    simp only [monthScan]
    split
    · rename_i hlt
      rcases ih with ⟨ih1, ih2⟩
      refine ⟨ih1, Or.inr ?_⟩
      rcases ih2 with h | h
      · rw [h]; exact hlt
      · exact h
    · rename_i hge
      push_neg at hge
      exact ⟨hge, Or.inl rfl⟩

/-- The year length equals the last entry of the chosen cumulative table. -/
theorem yearLength_table (y : Int) : yearLength y = (mon_yday (isleap y)).getD 12 0 := by
  unfold yearLength mon_yday
  by_cases h : isleap y = true
  · rw [if_pos h, if_pos h]; rfl
  · rw [if_neg h, if_neg h]; rfl

/-- Correctness of the month search on a cumulative table: for a day index
within the year it brackets days between two consecutive entries. -/
theorem monthScan_spec (leap : Bool) {d : Int} (hd0 : 0 ≤ d)
    (hd1 : d < (mon_yday leap).getD 12 0) :
    (mon_yday leap).getD (monthScan (mon_yday leap) d 11) 0 ≤ d ∧
    d < (mon_yday leap).getD (monthScan (mon_yday leap) d 11 + 1) 0 ∧
    monthScan (mon_yday leap) d 11 ≤ 11 := by
  have h0 : (mon_yday leap).getD 0 0 ≤ d := by
    cases leap <;> simpa [mon_yday, mon_yday_normal, mon_yday_leap] using hd0
  have haux := monthScan_spec_aux (mon_yday leap) d h0 11
  have hle := monthScan_le (mon_yday leap) d 11
  refine ⟨haux.1, ?_, hle⟩
  rcases haux.2 with h | h
  · rw [h]; exact hd1
  · exact h

/-- The converter, written with the named projections of its intermediate
stages; equal by unfolding the let bindings. -/
theorem GrubTimeToEfiTime_eq (t : Int) :
    GrubTimeToEfiTime t =
      { Hour := (epochRem t).tdiv SECS_PER_HOUR,
        Minute := ((epochRem t).tmod SECS_PER_HOUR).tdiv 60,
        Second := ((epochRem t).tmod SECS_PER_HOUR).tmod 60,
        Year := (yearLoop 100 (epochDays t) 1970).2,
        Month := (monthScan (mon_yday (isleap (yearLoop 100 (epochDays t) 1970).2))
          (yearLoop 100 (epochDays t) 1970).1 11 : Int) + 1,
        Day := (yearLoop 100 (epochDays t) 1970).1 -
          (mon_yday (isleap (yearLoop 100 (epochDays t) 1970).2)).getD
            (monthScan (mon_yday (isleap (yearLoop 100 (epochDays t) 1970).2))
              (yearLoop 100 (epochDays t) 1970).1 11) 0 + 1 } := rfl

/-- C1: GrubTimeToEfiTime maps epoch second 0 to 1970-01-01T00:00:00 and
epoch second -1 to 1969-12-31T23:59:59; the negative input is normalised with
floor-division semantics (carried backwards into 1969), not truncation. -/
theorem GrubTimeToEfiTime_epoch_boundary :
    GrubTimeToEfiTime 0 =
      { Year := 1970, Month := 1, Day := 1, Hour := 0, Minute := 0, Second := 0 } ∧
    GrubTimeToEfiTime (-1) =
      { Year := 1969, Month := 12, Day := 31, Hour := 23, Minute := 59, Second := 59 } := by
  constructor <;> decide

/-- C2: for every 32-bit signed input the converter produces a valid calendar
value (hour in [0,24), minute and second in [0,60), month in 1..12, day within
the month selected by the Gregorian leap rule), and the year-correction loop
converges: with any fuel of at least 3 iterations it reaches the exit
condition and its result no longer changes. -/
theorem GrubTimeToEfiTime_valid (t : Int)
    (h1 : -2147483648 ≤ t) (h2 : t < 2147483648) :
    validTime (GrubTimeToEfiTime t) ∧
    converged (yearLoop 100 (epochDays t) 1970).1 (yearLoop 100 (epochDays t) 1970).2 ∧
    (∀ n, 3 ≤ n → yearLoop n (epochDays t) 1970 = yearLoop 3 (epochDays t) 1970) := by
  obtain ⟨hsum, hr0, hr1⟩ := norm_spec t
  have hdlo : -24857 ≤ epochDays t := by omega
  have hdhi : epochDays t ≤ 24856 := by omega
  have hloop := yearLoop_total hdlo hdhi
  have hcv := (hloop 100 (by norm_num)).2
  refine ⟨?_, hcv, fun n hn => (hloop n hn).1⟩
  rw [GrubTimeToEfiTime_eq]
  unfold validTime
  dsimp only
  rw [SECS_PER_HOUR_eq]
  obtain ⟨e1, e2, e3⟩ := tmod_bracket (epochRem t) (show (0:Int) < 3600 by norm_num)
  have e4 : 0 ≤ (epochRem t).tmod 3600 := Int.tmod_nonneg 3600 hr0
  obtain ⟨f1, f2, f3⟩ := tmod_bracket ((epochRem t).tmod 3600) (show (0:Int) < 60 by norm_num)
  have f4 : 0 ≤ ((epochRem t).tmod 3600).tmod 60 := Int.tmod_nonneg 60 e4
  obtain ⟨hcv1, hcv2⟩ := hcv
  rw [yearLength_table] at hcv2
  obtain ⟨m1, m2, m3⟩ :=
    monthScan_spec (isleap (yearLoop 100 (epochDays t) 1970).2) hcv1 hcv2
  refine ⟨by omega, by omega, by omega, by omega, by omega, by omega,
    by omega, by omega, by omega, ?_, isleap_iff _⟩
  unfold daysInMonth
  have htn : ((monthScan (mon_yday (isleap (yearLoop 100 (epochDays t) 1970).2))
      (yearLoop 100 (epochDays t) 1970).1 11 : Int) + 1).toNat =
      monthScan (mon_yday (isleap (yearLoop 100 (epochDays t) 1970).2))
        (yearLoop 100 (epochDays t) 1970).1 11 + 1 := by omega
  rw [htn, Nat.add_sub_cancel]
  omega

/-- Witness for C2 at the concrete input 951868800. -/
theorem GrubTimeToEfiTime_valid_witness :
    validTime (GrubTimeToEfiTime 951868800) ∧
    converged (yearLoop 100 (epochDays 951868800) 1970).1
      (yearLoop 100 (epochDays 951868800) 1970).2 ∧
    (∀ n, 3 ≤ n → yearLoop n (epochDays 951868800) 1970 =
      yearLoop 3 (epochDays 951868800) 1970) :=
  GrubTimeToEfiTime_valid 951868800 (by norm_num) (by norm_num)

/-! ## Disk I/O translator, device shadow manager, probe and UUID bridge
(grubberize.c lines 108-222).  The EFI host capabilities (DiskIo.ReadDisk,
the pool allocator, the variable store) and the foreign driver entry points
(dir, uuid) are modelled as oracle functions; calls into them are recorded
in explicit traces. -/

/-- grub_err_t success value GRUB_ERR_NONE (grub/err.h). -/
def GRUB_ERR_NONE : Nat := 0

/-- Modelled from the spec: grub/err.h is not part of this repository; the
generic read-error code GRUB_ERR_READ_ERROR is some fixed nonzero grub_err_t
value, represented here by 1. -/
def GRUB_ERR_READ_ERROR : Nat := 1

/-- EFI_STATUS is a UINTN. -/
abbrev EFI_STATUS := Nat

/-- EFI_ERROR(Status): the high (sign) bit of the status is set. -/
def EFI_ERROR (s : EFI_STATUS) : Prop := 2 ^ 63 ≤ s

instance (s : EFI_STATUS) : Decidable (EFI_ERROR s) := by
  unfold EFI_ERROR; infer_instance

/-- An error status used by the raw block device model. -/
def EFI_DEVICE_ERROR : EFI_STATUS := 2 ^ 63 + 7

/-- The host raw-block capability: ReadDisk takes a media id, a byte offset
and a byte count and yields a status together with the bytes it wrote into
the destination buffer. -/
structure EfiDiskIo where
  ReadDisk : Nat → Nat → Nat → EFI_STATUS × List Nat

/-- The fields of the surrounding driver's EFI_FS record that this layer
reads: the raw-block capability. -/
structure EFI_FS where
  DiskIo : Option EfiDiskIo

/-- struct grub_disk: the private data field is an opaque back-reference;
ptr is the pool address of the record itself. -/
structure grub_disk (α : Type) where
  ptr : Nat
  data : Option α

/-- struct grub_device: holds its disk; ptr is the pool address. -/
structure grub_device (α : Type) where
  ptr : Nat
  disk : Option (grub_disk α)

/-- A raw-block read that grub_disk_read issued to the host. -/
structure ReadCall where
  MediaId : Nat
  Offset : Nat
  Size : Nat
deriving DecidableEq

/-- Result of grub_disk_read: the error code it returns, the raw-block reads
it issued, the sectors named in diagnostics, and the destination buffer's
final contents. -/
structure DiskReadResult where
  err : Nat
  calls : List ReadCall
  diags : List Nat
  buf : List Nat
deriving DecidableEq

/-- GRUB_DISK_SECTOR_SIZE: the fixed sector size GRUB assumes. -/
def GRUB_DISK_SECTOR_SIZE : Nat := 512

/-- Embedding of grub_disk_read (grubberize.c lines 110-132). -/
def grub_disk_read (disk : grub_disk EFI_FS) (sector offset size : Nat)
    (buf : List Nat) : DiskReadResult :=
  match disk.data with
  | none => ⟨GRUB_ERR_READ_ERROR, [], [], buf⟩
  | some fs =>
    match fs.DiskIo with
    | none => ⟨GRUB_ERR_READ_ERROR, [], [], buf⟩
    | some dio =>
      let addr := sector * GRUB_DISK_SECTOR_SIZE + offset
      let r := dio.ReadDisk 0 addr size
      if EFI_ERROR r.1 then ⟨GRUB_ERR_READ_ERROR, [⟨0, addr, size⟩], [sector], r.2⟩
      else ⟨GRUB_ERR_NONE, [⟨0, addr, size⟩], [], r.2⟩

/-- A store-backed host block device of the given byte capacity: an in-bounds
read succeeds and delivers the stored bytes, an out-of-bounds read fails. -/
def rawBlockDevice (store : Nat → Nat) (capacity : Nat) : EfiDiskIo :=
  ⟨fun _ off size =>
    if off + size ≤ capacity then (0, (List.range size).map fun i => store (off + i))
    else (EFI_DEVICE_ERROR, [])⟩

/-- The pool allocator state: the next fresh pool address and the list of
live allocations. -/
structure Heap where
  next : Nat
  live : List Nat
deriving DecidableEq

/-- grub_zalloc via the pool allocator: the oracle ok says whether the next
allocation succeeds. -/
def grub_zalloc (ok : Nat → Bool) (h : Heap) : Option Nat × Heap :=
  if ok h.next then (some h.next, ⟨h.next + 1, h.next :: h.live⟩)
  else (none, ⟨h.next + 1, h.live⟩)

/-- grub_free via the pool allocator. -/
def grub_free (h : Heap) (p : Nat) : Heap := ⟨h.next, h.live.erase p⟩

/-- Embedding of grub_device_open (grubberize.c lines 138-158): allocate the
device, then the disk; on disk-allocation failure free the device; store the
identity in the disk's private data field. -/
def grub_device_open (α : Type) (ok : Nat → Bool) (h : Heap) (name : Option α) :
    Option (grub_device α) × Heap :=
  match grub_zalloc ok h with
  | (none, h1) => (none, h1)
  | (some dptr, h1) =>
    match grub_zalloc ok h1 with
    | (none, h2) => (none, grub_free h2 dptr)
    | (some kptr, h2) => (some ⟨dptr, some ⟨kptr, name⟩⟩, h2)

/-- Embedding of grub_device_close (grubberize.c lines 160-165): free the
disk, then the device (freeing a null disk pointer releases nothing). -/
def grub_device_close (α : Type) (h : Heap) (d : grub_device α) : Heap :=
  let h1 := match d.disk with
            | some k => grub_free h k.ptr
            | none => h
  grub_free h1 d.ptr

/-- The info record passed to directory visitors. -/
structure grub_dirhook_info where
  isDir : Bool
deriving DecidableEq

/-- The registered foreign driver: dir is the directory-iteration entry point
(modelled as returning the value of the process-wide grub_errno after the
call), uuid the optional UUID-extraction entry point, returning the grub_err_t
result and the identifier it produced. -/
structure grub_fs (α : Type) where
  dir : grub_device α → String → (String → grub_dirhook_info → Option Unit → Int) → Nat
  uuid : Option (Option (grub_device α) → Nat × Option (List Nat))

/-- Embedding of probe_dummy_iter (grubberize.c lines 184-190): ignores its
arguments and returns 1, stopping the iteration after the first entry. -/
def probe_dummy_iter : String → grub_dirhook_info → Option Unit → Int :=
  fun _ _ _ => 1

/-- Result of GrubFSProbe: its boolean answer and the trace of paths on which
the foreign driver's dir entry point was invoked. -/
structure ProbeResult where
  res : Bool
  dirCalls : List String
deriving DecidableEq

/-- An execution that the C code does not survive. -/
inductive CrashE
  | nullDeref
deriving DecidableEq

/-- Embedding of GrubFSProbe (grubberize.c lines 192-204).  The null checks
short-circuit exactly as the C condition (p == NULL) || (device->disk == NULL)
does; a null device pointer is dereferenced. -/
def GrubFSProbe (α : Type) (fsList : Option (grub_fs α))
    (dev : Option (grub_device α)) : Except CrashE ProbeResult :=
  match fsList with
  | none => .ok ⟨false, []⟩
  | some p =>
    match dev with
    | none => .error .nullDeref
    | some device =>
      match device.disk with
      | none => .ok ⟨false, []⟩
      | some _ =>
        let errno := p.dir device "/" probe_dummy_iter
        .ok ⟨errno == GRUB_ERR_NONE, ["/"]⟩

/-- UTF-16 encoding of one code point: one unit for the BMP, a surrogate pair
above it. -/
def utf16Encode (cp : Nat) : List Nat :=
  if cp < 0x10000 then [cp]
  else [0xD800 + (cp - 0x10000) / 0x400, 0xDC00 + (cp - 0x10000) % 0x400]

/-- Best-effort UTF-8 decoding into code points (1- to 4-byte forms). -/
def utf8Decode : List Nat → List Nat
  | [] => []
  | b :: rest =>
    if b < 0x80 then b :: utf8Decode rest
    else if b < 0xC0 then utf8Decode rest
    else if b < 0xE0 then
      match rest with
      | c :: rest2 => ((b - 0xC0) * 0x40 + c % 0x40) :: utf8Decode rest2
      | [] => []
    else if b < 0xF0 then
      match rest with
      | c :: d :: rest3 =>
        ((b - 0xE0) * 0x1000 + (c % 0x40) * 0x40 + d % 0x40) :: utf8Decode rest3
      | _ => []
    else
      match rest with
      | c :: d :: e :: rest4 =>
        ((b - 0xF0) * 0x40000 + (c % 0x40) * 0x1000 + (d % 0x40) * 0x40 + e % 0x40) ::
          utf8Decode rest4
      | _ => []

/-- Modelled from the spec: GRUB's grub_utf8_to_utf16 (grub/charset.h, not
part of this repository) transcodes narrow UTF-8 text into wide code units,
writing at most destsize units: the conversion is capacity-bounded by the
destination size argument. -/
def grub_utf8_to_utf16 (destsize : Nat) (src : List Nat) : List Nat :=
  ((utf8Decode src).flatMap utf16Encode).take destsize

/-- UTF-8 encoding of one BMP code unit: 1 to 3 bytes. -/
def utf8Encode (u : Nat) : List Nat :=
  if u < 0x80 then [u]
  else if u < 0x800 then [0xC0 + u / 0x40, 0x80 + u % 0x40]
  else [0xE0 + u / 0x1000, 0x80 + (u / 0x40) % 0x40, 0x80 + u % 0x40]

/-- Modelled from the spec and the source comment at grubberize.c line 74:
GRUB's grub_utf16_to_utf8 (not part of this repository) converts the given
number of source UTF-16 units into UTF-8 bytes; it neither stops at a NUL
nor checks the destination size. -/
def grub_utf16_to_utf8 (src : List Nat) (size : Nat) : List Nat :=
  (src.take size).flatMap utf8Encode

/-- Embedding of GrubGetUUID (grubberize.c lines 206-222).  Note that
grub_fs_list is dereferenced before any null check, and that only a null
identifier (not an empty one) is rejected. -/
def GrubGetUUID (α : Type) (fsList : Option (grub_fs α))
    (dev : Option (grub_device α)) : Except CrashE (Option (List Nat)) :=
  match fsList with
  | none => .error .nullDeref
  | some p =>
    match p.uuid with
    | none => .ok none
    | some uuidFn =>
      let r := uuidFn dev
      if r.1 ≠ GRUB_ERR_NONE ∨ r.2 = none then .ok none
      else .ok (some (grub_utf8_to_utf16 36 (r.2.getD [])))

/-- StrLen on a wide value: units before the first NUL. -/
def StrLen (s : List Nat) : Nat := (s.takeWhile (fun u => u ≠ 0)).length

/-- Embedding of grub_env_get (grubberize.c lines 60-78).  The host variable
store is an oracle from the converted wide name to the wide value; the host
GetVariable call fails when the variable is absent or its value does not fit
the 128-unit wVal buffer. -/
def grub_env_get (store : List Nat → Option (List Nat)) (var : List Nat) :
    Option (List Nat) :=
  let wVar := grub_utf8_to_utf16 64 var
  match store wVar with
  | none => none
  | some wVal =>
    if 128 < wVal.length then none
    else some (grub_utf16_to_utf8 wVal (StrLen wVal + 1))

/-- C3: with a non-null back-reference and raw-block capability,
grub_disk_read issues exactly one raw-block read, at byte address
sector * GRUB_DISK_SECTOR_SIZE + offset for size bytes; the destination
buffer receives exactly what that host read delivers, and the call succeeds
exactly when the host read does.  In particular, over a store-backed block
device and within its bounds, the delivered bytes are identical to a direct
raw-block read of the store at that address. -/
theorem grub_disk_read_passthrough (disk : grub_disk EFI_FS) (fs : EFI_FS)
    (dio : EfiDiskIo) (hd : disk.data = some fs) (hfs : fs.DiskIo = some dio)
    (sector offset size : Nat) (buf : List Nat) :
    (grub_disk_read disk sector offset size buf).calls =
      [⟨0, sector * GRUB_DISK_SECTOR_SIZE + offset, size⟩] ∧
    (grub_disk_read disk sector offset size buf).buf =
      (dio.ReadDisk 0 (sector * GRUB_DISK_SECTOR_SIZE + offset) size).2 ∧
    ((grub_disk_read disk sector offset size buf).err = GRUB_ERR_NONE ↔
      ¬ EFI_ERROR (dio.ReadDisk 0 (sector * GRUB_DISK_SECTOR_SIZE + offset) size).1) ∧
    (∀ store capacity, dio = rawBlockDevice store capacity →
      sector * GRUB_DISK_SECTOR_SIZE + offset + size ≤ capacity →
      (grub_disk_read disk sector offset size buf).err = GRUB_ERR_NONE ∧
      (grub_disk_read disk sector offset size buf).buf =
        (List.range size).map fun i => store (sector * GRUB_DISK_SECTOR_SIZE + offset + i)) := by
  unfold grub_disk_read
  rw [hd]
  dsimp only
  rw [hfs]
  dsimp only
  by_cases hE : EFI_ERROR (dio.ReadDisk 0 (sector * GRUB_DISK_SECTOR_SIZE + offset) size).1
  · rw [if_pos hE]
    refine ⟨rfl, rfl, by simp [GRUB_ERR_READ_ERROR, GRUB_ERR_NONE, hE], ?_⟩
    intro store capacity hdio hcap
    exfalso
    rw [hdio] at hE
    unfold rawBlockDevice at hE
    dsimp only at hE
    rw [if_pos hcap] at hE
    exact absurd hE (by norm_num [EFI_ERROR])
  · rw [if_neg hE]
    refine ⟨rfl, rfl, by simp [GRUB_ERR_NONE, hE], ?_⟩
    intro store capacity hdio hcap
    rw [hdio]
    unfold rawBlockDevice
    dsimp only
    rw [if_pos hcap]
    exact ⟨rfl, rfl⟩

/-- Witness for C3 over a concrete store-backed device. -/
theorem grub_disk_read_passthrough_witness :
    (grub_disk_read ⟨0, some ⟨some (rawBlockDevice (fun i => i % 256) 2048)⟩⟩ 1 4 3
        [9, 9, 9]).calls = [⟨0, 516, 3⟩] ∧
    (grub_disk_read ⟨0, some ⟨some (rawBlockDevice (fun i => i % 256) 2048)⟩⟩ 1 4 3
        [9, 9, 9]).buf =
      ((rawBlockDevice (fun i => i % 256) 2048).ReadDisk 0 516 3).2 ∧
    ((grub_disk_read ⟨0, some ⟨some (rawBlockDevice (fun i => i % 256) 2048)⟩⟩ 1 4 3
        [9, 9, 9]).err = GRUB_ERR_NONE ↔
      ¬ EFI_ERROR ((rawBlockDevice (fun i => i % 256) 2048).ReadDisk 0 516 3).1) ∧
    (∀ store capacity,
      rawBlockDevice (fun i => i % 256) 2048 = rawBlockDevice store capacity →
      516 + 3 ≤ capacity →
      (grub_disk_read ⟨0, some ⟨some (rawBlockDevice (fun i => i % 256) 2048)⟩⟩ 1 4 3
          [9, 9, 9]).err = GRUB_ERR_NONE ∧
      (grub_disk_read ⟨0, some ⟨some (rawBlockDevice (fun i => i % 256) 2048)⟩⟩ 1 4 3
          [9, 9, 9]).buf = (List.range 3).map fun i => store (516 + i)) :=
  grub_disk_read_passthrough _ _ _ rfl rfl 1 4 3 [9, 9, 9]

/-- C4: with a null back-reference or a null raw-block capability,
grub_disk_read returns the generic read-error code without issuing any host
read and without emitting a diagnostic, leaving the buffer untouched; and on
host read failure it returns the generic read-error code after exactly one
host read, emitting one diagnostic naming the failing sector. -/
theorem grub_disk_read_error_paths (sector offset size : Nat) (buf : List Nat) :
    (∀ disk : grub_disk EFI_FS, disk.data = none →
      grub_disk_read disk sector offset size buf =
        ⟨GRUB_ERR_READ_ERROR, [], [], buf⟩) ∧
    (∀ (disk : grub_disk EFI_FS) (fs : EFI_FS), disk.data = some fs →
      fs.DiskIo = none →
      grub_disk_read disk sector offset size buf =
        ⟨GRUB_ERR_READ_ERROR, [], [], buf⟩) ∧
    (∀ (disk : grub_disk EFI_FS) (fs : EFI_FS) (dio : EfiDiskIo),
      disk.data = some fs → fs.DiskIo = some dio →
      EFI_ERROR (dio.ReadDisk 0 (sector * GRUB_DISK_SECTOR_SIZE + offset) size).1 →
      (grub_disk_read disk sector offset size buf).err = GRUB_ERR_READ_ERROR ∧
      (grub_disk_read disk sector offset size buf).diags = [sector] ∧
      (grub_disk_read disk sector offset size buf).calls =
        [⟨0, sector * GRUB_DISK_SECTOR_SIZE + offset, size⟩]) := by
  refine ⟨?_, ?_, ?_⟩
  · intro disk hd
    unfold grub_disk_read
    rw [hd]
  · intro disk fs hd hfs
    unfold grub_disk_read
    rw [hd]
    dsimp only
    rw [hfs]
  · intro disk fs dio hd hfs hE
    unfold grub_disk_read
    rw [hd]
    dsimp only
    rw [hfs]
    dsimp only
    rw [if_pos hE]
    exact ⟨rfl, rfl, rfl⟩

/-- Witness for C4: a disk with a null back-reference, one with a null
capability, and a failing host read. -/
theorem grub_disk_read_error_paths_witness :
    grub_disk_read ⟨0, none⟩ 2 1 5 [7] = ⟨GRUB_ERR_READ_ERROR, [], [], [7]⟩ ∧
    grub_disk_read ⟨0, some ⟨none⟩⟩ 2 1 5 [7] = ⟨GRUB_ERR_READ_ERROR, [], [], [7]⟩ ∧
    ((grub_disk_read ⟨0, some ⟨some (rawBlockDevice (fun _ => 0) 10)⟩⟩ 2 1 5 [7]).err =
        GRUB_ERR_READ_ERROR ∧
      (grub_disk_read ⟨0, some ⟨some (rawBlockDevice (fun _ => 0) 10)⟩⟩ 2 1 5 [7]).diags =
        [2] ∧
      (grub_disk_read ⟨0, some ⟨some (rawBlockDevice (fun _ => 0) 10)⟩⟩ 2 1 5 [7]).calls =
        [⟨0, 1025, 5⟩]) :=
  ⟨(grub_disk_read_error_paths 2 1 5 [7]).1 _ rfl,
   (grub_disk_read_error_paths 2 1 5 [7]).2.1 _ _ rfl rfl,
   (grub_disk_read_error_paths 2 1 5 [7]).2.2 _ _ _ rfl rfl (by decide)⟩

/-- C5: for every identity (including none) grub_device_open either returns a
device whose nested disk's back-reference equals the identity, or returns
none leaving the set of live allocations unchanged (device-allocation failure
allocates nothing; disk-allocation failure frees the device first);
grub_device_close releases the disk and then the device, so an open followed
immediately by close is allocation-neutral. -/
theorem grub_device_open_close_neutral (α : Type) (ok : Nat → Bool) (h : Heap)
    (name : Option α) :
    (∀ d h2, grub_device_open α ok h name = (some d, h2) →
      (∃ k, d.disk = some k ∧ k.data = name) ∧
      (grub_device_close α h2 d).live = h.live) ∧
    (∀ h2, grub_device_open α ok h name = (none, h2) → h2.live = h.live) ∧
    (∀ (hp : Heap) (d : grub_device α) (k : grub_disk α), d.disk = some k →
      grub_device_close α hp d = ⟨hp.next, (hp.live.erase k.ptr).erase d.ptr⟩) := by
  refine ⟨?_, ?_, ?_⟩
  · intro d h2 heq
    unfold grub_device_open grub_zalloc at heq
    by_cases o1 : ok h.next
    · rw [if_pos o1] at heq
      dsimp only at heq
      by_cases o2 : ok (h.next + 1)
      · rw [if_pos o2] at heq
        dsimp only at heq
        obtain ⟨hd, hh⟩ := Prod.mk.injEq .. ▸ heq
        obtain rfl := Option.some.inj hd
        subst hh
        refine ⟨⟨⟨h.next + 1, name⟩, rfl, rfl⟩, ?_⟩
        unfold grub_device_close grub_free
        dsimp only
        rw [List.erase_cons_head, List.erase_cons_head]
      · rw [if_neg o2] at heq
        dsimp only at heq
        exact absurd (congrArg Prod.fst heq) (by simp)
    · rw [if_neg o1] at heq
      dsimp only at heq
      exact absurd (congrArg Prod.fst heq) (by simp)
  · intro h2 heq
    unfold grub_device_open grub_zalloc at heq
    by_cases o1 : ok h.next
    · rw [if_pos o1] at heq
      dsimp only at heq
      by_cases o2 : ok (h.next + 1)
      · rw [if_pos o2] at heq
        dsimp only at heq
        exact absurd (congrArg Prod.fst heq) (by simp)
      · rw [if_neg o2] at heq
        dsimp only at heq
        obtain ⟨hd, hh⟩ := Prod.mk.injEq .. ▸ heq
        subst hh
        unfold grub_free
        dsimp only
        rw [List.erase_cons_head]
    · rw [if_neg o1] at heq
      dsimp only at heq
      obtain ⟨hd, hh⟩ := Prod.mk.injEq .. ▸ heq
      subst hh
      rfl
  · intro hp d k hk
    unfold grub_device_close
    rw [hk]
    rfl

/-- Witness for C5 on a concrete heap with an always-succeeding allocator and
a failing allocator. -/
theorem grub_device_open_close_neutral_witness :
    ((∃ k, (⟨5, some ⟨6, some 42⟩⟩ : grub_device Nat).disk = some k ∧ k.data = some 42) ∧
      (grub_device_close Nat ⟨7, [6, 5, 3]⟩ ⟨5, some ⟨6, some 42⟩⟩).live = [3]) ∧
    (grub_device_open Nat (fun _ => false) ⟨5, [3]⟩ (some 42) =
      (none, ⟨6, [3]⟩) → (⟨6, [3]⟩ : Heap).live = [3]) ∧
    (grub_device_close Nat ⟨9, [8, 2]⟩ ⟨2, some ⟨8, (none : Option Nat)⟩⟩ =
      ⟨9, (([8, 2].erase 8).erase 2 : List Nat)⟩) := by
  refine ⟨?_, ?_, ?_⟩
  · exact (grub_device_open_close_neutral Nat (fun _ => true) ⟨5, [3]⟩ (some 42)).1
      ⟨5, some ⟨6, some 42⟩⟩ ⟨7, [6, 5, 3]⟩ rfl
  · exact fun _ => (grub_device_open_close_neutral Nat (fun _ => false) ⟨5, [3]⟩
      (some 42)).2.1 ⟨6, [3]⟩ rfl
  · exact (grub_device_open_close_neutral Nat (fun _ => true) ⟨0, []⟩ none).2.2
      ⟨9, [8, 2]⟩ ⟨2, some ⟨8, none⟩⟩ ⟨8, none⟩ rfl

/-- C6: GrubFSProbe returns false with no driver invocation when the registry
slot is empty or the device's disk is null; otherwise it invokes the
registered driver's dir entry point exactly once, on the root path, with
probe_dummy_iter as the visitor, and returns whether the foreign error flag
is clear afterwards; probe_dummy_iter ignores its arguments and always
returns 1 (stop after the first entry). -/
theorem GrubFSProbe_spec (α : Type) (fsList : Option (grub_fs α))
    (dev : Option (grub_device α)) :
    (fsList = none → GrubFSProbe α fsList dev = .ok ⟨false, []⟩) ∧
    (∀ p d, fsList = some p → dev = some d → d.disk = none →
      GrubFSProbe α fsList dev = .ok ⟨false, []⟩) ∧
    (∀ p d k, fsList = some p → dev = some d → d.disk = some k →
      GrubFSProbe α fsList dev =
        .ok ⟨p.dir d "/" probe_dummy_iter == GRUB_ERR_NONE, ["/"]⟩) ∧
    (∀ f i u, probe_dummy_iter f i u = 1) := by
  refine ⟨?_, ?_, ?_, fun _ _ _ => rfl⟩
  · intro hf
    subst hf
    rfl
  · intro p d hf hd hk
    subst hf
    subst hd
    unfold GrubFSProbe
    dsimp only
    rw [hk]
  · intro p d k hf hd hk
    subst hf
    subst hd
    unfold GrubFSProbe
    dsimp only
    rw [hk]

/-- Witness for C6: an empty registry, a device with a null disk, and a
driver whose dir entry point reports an error flag. -/
theorem GrubFSProbe_spec_witness :
    GrubFSProbe Nat none (some ⟨0, some ⟨1, none⟩⟩) = .ok ⟨false, []⟩ ∧
    GrubFSProbe Nat (some ⟨fun _ _ _ => 3, none⟩) (some ⟨0, none⟩) = .ok ⟨false, []⟩ ∧
    GrubFSProbe Nat (some ⟨fun _ _ _ => 3, none⟩) (some ⟨0, some ⟨1, none⟩⟩) =
      .ok ⟨(⟨fun _ _ _ => 3, none⟩ : grub_fs Nat).dir ⟨0, some ⟨1, none⟩⟩ "/"
        probe_dummy_iter == GRUB_ERR_NONE, ["/"]⟩ ∧
    probe_dummy_iter "x" ⟨false⟩ none = 1 :=
  ⟨(GrubFSProbe_spec Nat none (some ⟨0, some ⟨1, none⟩⟩)).1 rfl,
   (GrubFSProbe_spec Nat (some ⟨fun _ _ _ => 3, none⟩) (some ⟨0, none⟩)).2.1
     _ _ rfl rfl rfl,
   (GrubFSProbe_spec Nat (some ⟨fun _ _ _ => 3, none⟩) (some ⟨0, some ⟨1, none⟩⟩)).2.2.1
     _ _ _ rfl rfl rfl,
   (GrubFSProbe_spec Nat none none).2.2.2 "x" ⟨false⟩ none⟩

/-- C7 counterexample: a registered driver whose uuid entry point succeeds
with an empty (non-null) identifier.  The claim says GrubGetUUID returns null
for an empty identifier; the code only checks for a null pointer, so it
returns the static buffer (holding the empty transcoding) instead. -/
theorem GrubGetUUID_empty_uuid_cex :
    GrubGetUUID Unit
      (some ⟨fun _ _ _ => 0, some (fun _ => (GRUB_ERR_NONE, some []))⟩) none =
      .ok (some []) ∧
    (Except.ok (some []) : Except CrashE (Option (List Nat))) ≠ .ok none := by
  exact ⟨rfl, by simp⟩

/-- C7 (amended): with a registered driver, GrubGetUUID returns null exactly
when the driver exposes no uuid entry point, or invoking it returns an error,
or it yields a null identifier; in every other case (including an empty
identifier) it returns the buffer holding the 36-unit-capped wide transcoding
of the identifier. -/
theorem GrubGetUUID_spec (α : Type) (p : grub_fs α) (dev : Option (grub_device α)) :
    (p.uuid = none → GrubGetUUID α (some p) dev = .ok none) ∧
    (∀ f, p.uuid = some f → (f dev).1 ≠ GRUB_ERR_NONE →
      GrubGetUUID α (some p) dev = .ok none) ∧
    (∀ f, p.uuid = some f → (f dev).2 = none →
      GrubGetUUID α (some p) dev = .ok none) ∧
    (∀ f u, p.uuid = some f → (f dev).1 = GRUB_ERR_NONE → (f dev).2 = some u →
      GrubGetUUID α (some p) dev = .ok (some (grub_utf8_to_utf16 36 u))) := by
  refine ⟨?_, ?_, ?_, ?_⟩
  · intro hu
    unfold GrubGetUUID
    dsimp only
    rw [hu]
  · intro f hu he
    unfold GrubGetUUID
    dsimp only
    rw [hu]
    dsimp only
    rw [if_pos (Or.inl he)]
  · intro f hu he
    unfold GrubGetUUID
    dsimp only
    rw [hu]
    dsimp only
    rw [if_pos (Or.inr he)]
  · intro f u hu h1 h2
    unfold GrubGetUUID
    dsimp only
    rw [hu]
    dsimp only
    rw [if_neg (by simp [h1, h2])]
    rw [h2]
    rfl

/-- Witness for C7 (amended) over concrete drivers. -/
theorem GrubGetUUID_spec_witness :
    GrubGetUUID Unit (some ⟨fun _ _ _ => 0, none⟩) none = .ok none ∧
    GrubGetUUID Unit (some ⟨fun _ _ _ => 0, some (fun _ => (5, some [97]))⟩) none =
      .ok none ∧
    GrubGetUUID Unit (some ⟨fun _ _ _ => 0, some (fun _ => (GRUB_ERR_NONE, none))⟩)
      none = .ok none ∧
    GrubGetUUID Unit (some ⟨fun _ _ _ => 0,
      some (fun _ => (GRUB_ERR_NONE, some [97, 98]))⟩) none =
      .ok (some (grub_utf8_to_utf16 36 [97, 98])) :=
  ⟨(GrubGetUUID_spec Unit ⟨fun _ _ _ => 0, none⟩ none).1 rfl,
   (GrubGetUUID_spec Unit ⟨fun _ _ _ => 0, some (fun _ => (5, some [97]))⟩ none).2.1
     _ rfl (by decide),
   (GrubGetUUID_spec Unit ⟨fun _ _ _ => 0, some (fun _ => (GRUB_ERR_NONE, none))⟩
     none).2.2.1 _ rfl rfl,
   (GrubGetUUID_spec Unit ⟨fun _ _ _ => 0,
     some (fun _ => (GRUB_ERR_NONE, some [97, 98]))⟩ none).2.2.2 _ _ rfl rfl rfl⟩

/-- C8: the wide transcoding is capacity-bounded: for every source, at most
destsize units are produced (in particular at most 36 for the UUID buffer,
also for oversized sources), and GrubGetUUID with a registered driver that
lacks uuid support returns null rather than crashing. -/
theorem grub_utf8_to_utf16_capacity :
    (∀ (destsize : Nat) (src : List Nat),
      (grub_utf8_to_utf16 destsize src).length ≤ destsize) ∧
    (∀ (α : Type) (p : grub_fs α) (dev : Option (grub_device α)), p.uuid = none →
      GrubGetUUID α (some p) dev = .ok none) := by
  constructor
  · intro d src
    unfold grub_utf8_to_utf16
    simp [List.length_take]
  · intro α p dev hu
    unfold GrubGetUUID
    dsimp only
    rw [hu]

/-- Witness for C8: an oversized 100-byte source stays within 36 units, and a
driver without uuid support yields null. -/
theorem grub_utf8_to_utf16_capacity_witness :
    (grub_utf8_to_utf16 36 (List.replicate 100 65)).length ≤ 36 ∧
    GrubGetUUID Unit (some ⟨fun _ _ _ => 0, none⟩) none = .ok none :=
  ⟨grub_utf8_to_utf16_capacity.1 36 (List.replicate 100 65),
   grub_utf8_to_utf16_capacity.2 Unit ⟨fun _ _ _ => 0, none⟩ none rfl⟩

/-- An ASCII code unit transcodes to a single byte. -/
theorem utf8Encode_ascii {u : Nat} (h : u < 128) : utf8Encode u = [u] := by
  unfold utf8Encode
  rw [if_pos (by omega)]

/-- Transcoding an all-ASCII wide text yields exactly one byte per unit. -/
theorem flatMap_ascii_length (l : List Nat) (h : ∀ u ∈ l, u < 128) :
    (l.flatMap utf8Encode).length = l.length := by
  induction l with
  | nil => rfl
  | cons a tl ih =>
    rw [List.flatMap_cons, utf8Encode_ascii (h a (by simp))]
    simp only [List.length_append, List.length_cons, List.length_nil]
    rw [ih (fun u hu => h u (by simp [hu]))]
    omega

set_option maxRecDepth 8000 in
/-- C9 counterexample: a stored 128-unit value of 127 three-byte-expanding
units followed by a NUL.  The transcoding that grub_env_get writes into its
128-byte static buffer val is 382 bytes long: the claim that the writes stay
within the 128-unit bound is false. -/
theorem grub_env_get_overflow_cex :
    grub_env_get (fun w => if w = [117] then some (List.replicate 127 20013 ++ [0])
        else none) [117] =
      some (grub_utf16_to_utf8 (List.replicate 127 20013 ++ [0]) 128) ∧
    128 < (grub_utf16_to_utf8 (List.replicate 127 20013 ++ [0]) 128).length := by
  exact ⟨rfl, by decide⟩

/-- C9 (amended): a missing variable (or failing host query) yields null, on
any store, including one that never holds a variable; on a hit whose value
fits the wVal buffer and is ASCII, the returned transcoding stays within the
128-unit bound of the static buffer val. -/
theorem grub_env_get_spec (store : List Nat → Option (List Nat)) (var : List Nat) :
    (store (grub_utf8_to_utf16 64 var) = none → grub_env_get store var = none) ∧
    (∀ wVal, store (grub_utf8_to_utf16 64 var) = some wVal → wVal.length ≤ 128 →
      (∀ u ∈ wVal, u < 128) →
      grub_env_get store var = some (grub_utf16_to_utf8 wVal (StrLen wVal + 1)) ∧
      (grub_utf16_to_utf8 wVal (StrLen wVal + 1)).length ≤ 128) := by
  constructor
  · intro hs
    unfold grub_env_get
    dsimp only
    rw [hs]
  · intro wVal hs hlen hascii
    unfold grub_env_get
    dsimp only
    rw [hs]
    dsimp only
    rw [if_neg (by omega)]
    refine ⟨rfl, ?_⟩
    unfold grub_utf16_to_utf8
    rw [flatMap_ascii_length _ (fun u hu => hascii u (List.take_subset _ _ hu))]
    simp only [List.length_take]
    omega

/-- Witness for C9 (amended): an empty store misses, and an ASCII value stays
in bounds. -/
theorem grub_env_get_spec_witness :
    grub_env_get (fun _ => none) [117] = none ∧
    (grub_env_get (fun w => if w = grub_utf8_to_utf16 64 [117] then
        some [104, 105, 0] else none) [117] =
      some (grub_utf16_to_utf8 [104, 105, 0] (StrLen [104, 105, 0] + 1)) ∧
      (grub_utf16_to_utf8 [104, 105, 0] (StrLen [104, 105, 0] + 1)).length ≤ 128) :=
  ⟨(grub_env_get_spec (fun _ => none) [117]).1 rfl,
   (grub_env_get_spec (fun w => if w = grub_utf8_to_utf16 64 [117] then
      some [104, 105, 0] else none) [117]).2 [104, 105, 0] rfl (by norm_num)
      (by decide)⟩

/-- C10: GrubGetUUID reads the registered driver's uuid field through
grub_fs_list without a null check: with an empty registry it dereferences a
null pointer instead of returning null, while with any registered driver it
never crashes; GrubFSProbe, by contrast, handles the empty registry by
returning false. -/
theorem GrubGetUUID_null_registry_crash (α : Type) (dev : Option (grub_device α)) :
    GrubGetUUID α none dev = .error .nullDeref ∧
    (∀ p : grub_fs α, ∃ r, GrubGetUUID α (some p) dev = .ok r) ∧
    GrubFSProbe α none dev = .ok ⟨false, []⟩ := by
  refine ⟨rfl, ?_, rfl⟩
  intro p
  unfold GrubGetUUID
  dsimp only
  cases hu : p.uuid with
  | none => exact ⟨none, rfl⟩
  | some f =>
    dsimp only
    split
    · exact ⟨none, rfl⟩
    · exact ⟨_, rfl⟩

end Grubberize
